import Mathlib

/-!
Verification of the transaction-capture-and-batch-persistence pipeline of
gin-persist-log. Go byte slices and Go strings are both modelled as lists of
byte values (`GoStr`); a Go `any` cell of the flattened argument list is the
inductive `Arg`. The pluggable collaborators (identity generator, hasher,
time formatter) are an explicit environment `Env`, with one generator call
per loop iteration, indexed by the record's position in the batch.
-/

namespace GinPersistLog

/-- Go strings and Go byte slices, as their byte sequences. -/
abbrev GoStr := List Nat

/-- Byte sequence of an ASCII string literal appearing in the source. -/
def litBytes (s : String) : GoStr := s.data.map Char.toNat

/-- Model of `server.TxRecord`: one logged line of an HTTP exchange. `At` is an
abstract instant (the formatted text is produced by `Env.fmtTime`). -/
structure TxRecord where
  Request : GoStr
  Headers : GoStr
  Body : GoStr
  At : Nat
deriving DecidableEq, Repr

/-- An element of the batch handed to `BuildValues`: a Go `any` that either
holds a `TxRecord` or some other dynamic type (`other`). -/
inductive GoVal where
  | txRec (r : TxRecord)
  | other (tag : Nat)
deriving DecidableEq, Repr

/-- A cell of the flattened `[]any` argument list built by `BuildValues`. -/
inductive Arg where
  | nilA
  | bytes (b : GoStr)
  | str (s : GoStr)
  | nullBytes (v : Option GoStr)
deriving DecidableEq, Repr

/-- The distinct error values `BuildValues` can return. -/
inductive GoErr where
  | uuidGenErr
  | uuidMarshalErr
  | emptyRequest
  | hashWriteErr
deriving DecidableEq, Repr

/-- Outcome of one `utils.NewUuid()` + `id.MarshalBinary()` pair:
generation fails, marshaling fails, or both succeed with the 16 marshaled
bytes. -/
inductive GenResult where
  | genErr
  | marshalErr
  | ok (b : GoStr)
deriving DecidableEq, Repr

/-- The pluggable collaborators of the builder. `gen i` is the result of the
identity generation performed in loop iteration `i`; `writeErr s` is the
error returned by `hasher.WriteString s` after a `Reset` (always `none` for
the wired xxhash); `sum s` is `hasher.Sum64()` after resetting and writing
`s`; `fmtTime t` is `t.Format("2006-01-02 15:04:05.000000")`. -/
structure Env where
  gen : Nat → GenResult
  writeErr : GoStr → Option GoErr
  sum : GoStr → Nat
  fmtTime : Nat → GoStr

/-- The `numColumns` constant from db.go. -/
def numColumns : Nat := 5

/-- ASCII code of a lowercase hex digit. -/
def hexDigit (n : Nat) : Nat := if n < 10 then 48 + n else 87 + n

/-- Big-endian hex digits of `n` (fuelled; `fuel = 64` is ample for 64-bit
values). -/
def hexDigitsAux (fuel : Nat) (n : Nat) (acc : GoStr) : GoStr :=
  match fuel with
  | 0 => acc
  | fuel1 + 1 =>
    if n = 0 then acc else hexDigitsAux fuel1 (n / 16) (hexDigit (n % 16) :: acc)

/-- Model of `fmt.Sprintf("%016x", n)`: lowercase hex, left-padded with zeros to 16
characters. -/
def hexPad16 (n : Nat) : GoStr :=
  let d := if n = 0 then [48] else hexDigitsAux 64 n []
  List.replicate (16 - d.length) 48 ++ d

/-- The `body` column value: `sql.Null[[]byte]{}` when the body is nil or
empty, the valid blob otherwise. -/
def bodyArg (body : GoStr) : Arg :=
  if body = [] then Arg.nullBytes none else Arg.nullBytes (some body)

/-- Result of `BuildValues`: a run-time panic (failed type assertion), or
the quadruple `(count, args, failed, err)`; `args = none` models a nil
slice. -/
inductive BVResult where
  | goPanic
  | ok (count : Nat) (args : Option (List Arg)) (failed : List TxRecord)
      (err : Option GoErr)
deriving DecidableEq, Repr

/-- The loop of `BuildValues` (db.go:50-83), one iteration per batch
element, threading the write cursor `count`, the pre-allocated `args`
array, the `failed` accumulator and the named return `err`. Note that a
successful conversion stores the result of `hasher.WriteString` into `err`,
clearing any earlier per-record error. -/
def buildLoop (env : Env) :
    List GoVal → Nat → Nat → List Arg → List TxRecord → Option GoErr → BVResult
  | [], _, count, args, failed, err => BVResult.ok count (some args) failed err
  | d :: rest, i, count, args, failed, _ =>
    match d with
    | GoVal.other _ => BVResult.goPanic
    | GoVal.txRec rec =>
      match env.gen i with
      | GenResult.genErr =>
        buildLoop env rest (i + 1) count args (failed ++ [rec])
          (some GoErr.uuidGenErr)
      | GenResult.marshalErr =>
        buildLoop env rest (i + 1) count (args.set (count * numColumns) Arg.nilA)
          (failed ++ [rec]) (some GoErr.uuidMarshalErr)
      | GenResult.ok b =>
        let args1 := args.set (count * numColumns) (Arg.bytes b)
        if rec.Request = [] then BVResult.ok 0 none [] (some GoErr.emptyRequest)
        else
          match env.writeErr rec.Request with
          | some e => BVResult.ok 0 none [] (some e)
          | none =>
            let args2 :=
              ((((args1.set (count * numColumns + 1)
                    (Arg.str (hexPad16 (env.sum rec.Request)))).set
                  (count * numColumns + 2) (Arg.str rec.Headers)).set
                (count * numColumns + 3) (bodyArg rec.Body)).set
                (count * numColumns + 4) (Arg.str (env.fmtTime rec.At)))
            buildLoop env rest (i + 1) (count + 1) args2 failed none

/-- Model of `server.BuildValues` (db.go:43-85): allocates `len(data)*numColumns`
argument slots and runs the conversion loop. -/
def BuildValues (env : Env) (data : List GoVal) : BVResult :=
  buildLoop env data 0 0 (List.replicate (data.length * numColumns) Arg.nilA)
    [] none

/-- Go string slicing `s[1:]`: `none` models the slice-bounds panic when
`len(s) < 1`. -/
def goSliceFrom1 (s : GoStr) : Option GoStr :=
  if 1 ≤ s.length then some (s.drop 1) else none

/-- Model of `strings.Repeat`. -/
def strRepeat (s : GoStr) (n : Nat) : GoStr := (List.replicate n s).flatten

/-- Result of the statement-building closure: a panic, or the
`(statement, args)` pair; `args = none` models a nil slice. -/
inductive SBResult where
  | goPanic
  | ok (stmt : GoStr) (args : Option (List Arg))
deriving DecidableEq, Repr

/-- The closure returned by `server.SqlBuilder` (db.go:90-115), with the
logging and failure-sink writes (pure side effects) omitted: on any
`BuildValues` error it returns `("", nil)`; otherwise it renders the
multi-row INSERT. Both `[1:]` slicings are modelled with `goSliceFrom1`. -/
def SqlBuilder (env : Env) (data : List GoVal) : SBResult :=
  match BuildValues env data with
  | BVResult.goPanic => SBResult.goPanic
  | BVResult.ok count args _ err =>
    match err with
    | some _ => SBResult.ok [] none
    | none =>
      match goSliceFrom1 (strRepeat (litBytes ",?") numColumns) with
      | none => SBResult.goPanic
      | some qm =>
        let ps := litBytes ",(" ++ qm ++ litBytes ")"
        match goSliceFrom1 (strRepeat ps count) with
        | none => SBResult.goPanic
        | some groups =>
          SBResult.ok
            (litBytes "INSERT INTO tx_log (id, req_hash, headers, body, created_at) VALUES"
              ++ groups ++ litBytes ";") args

/-- The statement text produced for a given row count. -/
def insertStmtOf (count : Nat) : GoStr :=
  litBytes "INSERT INTO tx_log (id, req_hash, headers, body, created_at) VALUES"
    ++ (strRepeat (litBytes ",(" ++ (strRepeat (litBytes ",?") numColumns).drop 1
          ++ litBytes ")") count).drop 1
    ++ litBytes ";"

/-- The five column values of a successfully converted record, in column
order `id, req_hash, headers, body, created_at`. -/
def rowOf (env : Env) (b : GoStr) (rec : TxRecord) : List Arg :=
  [Arg.bytes b, Arg.str (hexPad16 (env.sum rec.Request)), Arg.str rec.Headers,
   bodyArg rec.Body, Arg.str (env.fmtTime rec.At)]

/-- Reference converter: rows of the records whose identity generation and
id-marshaling succeed, in input order, starting at generator index `i`. -/
def convRows (env : Env) : List TxRecord → Nat → List (List Arg)
  | [], _ => []
  | r :: rs, i =>
    match env.gen i with
    | GenResult.ok b => rowOf env b r :: convRows env rs (i + 1)
    | _ => convRows env rs (i + 1)

/-- Reference converter: the records whose identity generation or
id-marshaling fails, in input order. -/
def convFails (env : Env) : List TxRecord → Nat → List TxRecord
  | [], _ => []
  | r :: rs, i =>
    match env.gen i with
    | GenResult.ok _ => convFails env rs (i + 1)
    | _ => r :: convFails env rs (i + 1)

/-- The error value a record leaves in the builder's named return `err`:
per-record failures store an error, a successful conversion clears it. -/
def recStatus (env : Env) (i : Nat) : Option GoErr :=
  match env.gen i with
  | GenResult.genErr => some GoErr.uuidGenErr
  | GenResult.marshalErr => some GoErr.uuidMarshalErr
  | GenResult.ok _ => none

/-- Reference value of the builder's final `err` on a run that never takes a
batch-fatal return: the status left by the last record. -/
def convErr (env : Env) : List TxRecord → Nat → Option GoErr
  | [], _ => none
  | _ :: rs, i => if rs.isEmpty then recStatus env i else convErr env rs (i + 1)

/-- Whether a generation outcome is a full success. -/
def isOkGen : GenResult → Bool
  | GenResult.ok _ => true
  | _ => false

/-- Every record that will be reached on its success path (its generation
and marshaling succeed) has a non-empty correlation line and a hasher write
that succeeds: exactly the condition under which the loop never takes a
batch-fatal return. -/
def batchSafe (env : Env) : List TxRecord → Nat → Bool
  | [], _ => true
  | r :: rs, i =>
    (!(isOkGen (env.gen i)) ||
      (!r.Request.isEmpty && (env.writeErr r.Request).isNone))
      && batchSafe env rs (i + 1)

/-- All records in the window have succeeding generation and marshaling. -/
def allGenOk (env : Env) : List TxRecord → Nat → Bool
  | [], _ => true
  | _ :: rs, i => isOkGen (env.gen i) && allGenOk env rs (i + 1)

/-- Generation and marshaling succeed for every record except (possibly) the
one at relative position `p`. -/
def genOkExcept (env : Env) : List TxRecord → Nat → Nat → Bool
  | [], _, _ => true
  | _ :: rs, i, 0 => allGenOk env rs (i + 1)
  | _ :: rs, i, p + 1 => isOkGen (env.gen i) && genOkExcept env rs (i + 1) p

/-- Every record has a non-empty correlation line and a succeeding hasher
write. -/
def validReqs (env : Env) : List TxRecord → Bool
  | [] => true
  | r :: rs =>
    !r.Request.isEmpty && (env.writeErr r.Request).isNone && validReqs env rs

/-- One HTTP exchange as seen by the capture middleware
(`server.RequestLogger`, server.go:136-184): the request method and URL, the
outcomes of `httputil.DumpRequest` and of draining the request body (`none`
models a failure), whether rendering the response status line or headers
fails, the rendered response head bytes, the captured response body, and the
two capture instants. -/
structure Exchange where
  method : GoStr
  url : GoStr
  dumpReq : Option GoStr
  hasBody : Bool
  readBody : Option GoStr
  resLineErr : Bool
  resHeadersErr : Bool
  resLine : GoStr
  resHeaders : GoStr
  resBody : GoStr
  tReq : Nat
  tRes : Nat
deriving DecidableEq, Repr

/-- The middleware installed by `server.RequestLogger`: returns the records
pushed to the writer, in push order, and the abort status if the exchange
was aborted (400 on capture failures before the handler, 500 on response
rendering failures after it). -/
def RequestLogger (ex : Exchange) : List TxRecord × Option Nat :=
  let line := ex.method ++ [32] ++ ex.url
  match ex.dumpReq with
  | none => ([], some 400)
  | some headers =>
    match (if ex.hasBody then ex.readBody else some []) with
    | none => ([], some 400)
    | some body =>
      let reqRec : TxRecord :=
        { Request := line, Headers := headers, Body := body, At := ex.tReq }
      if ex.resLineErr then ([reqRec], some 500)
      else if ex.resHeadersErr then ([reqRec], some 500)
      else
        ([reqRec,
          { Request := line, Headers := ex.resLine ++ ex.resHeaders,
            Body := ex.resBody, At := ex.tRes }], none)

/-- The first `q` elements of the batch are `TxRecord`s with a non-empty
correlation line (so the loop reaches element `q` when the hasher never
fails). -/
def prefixSafe : List GoVal → Nat → Bool
  | _, 0 => true
  | [], _ + 1 => true
  | GoVal.txRec r :: rest, q + 1 => !r.Request.isEmpty && prefixSafe rest q
  | GoVal.other _ :: _, _ + 1 => false

/-! Concrete instances used to evaluate the model on explicit inputs. -/

/-- 16 marshaled identifier bytes. -/
def uuidBytes : GoStr := List.replicate 16 0

/-- An environment whose generator always succeeds, with an xxhash-like
hasher that never fails. -/
def envOk : Env :=
  { gen := fun _ => GenResult.ok uuidBytes, writeErr := fun _ => none,
    sum := fun _ => 0, fmtTime := fun _ => [48] }

/-- An environment whose generator always fails. -/
def envFail : Env :=
  { gen := fun _ => GenResult.genErr, writeErr := fun _ => none,
    sum := fun _ => 0, fmtTime := fun _ => [48] }

/-- An environment whose generator fails exactly at call index `p`. -/
def envFailAt (p : Nat) : Env :=
  { gen := fun i => if i = p then GenResult.genErr else GenResult.ok uuidBytes,
    writeErr := fun _ => none, sum := fun _ => 0, fmtTime := fun _ => [48] }

/-- A valid record: non-empty correlation line, some headers and body. -/
def recV : TxRecord := { Request := [97], Headers := [104], Body := [98], At := 3 }

/-- A record with an empty correlation line. -/
def recE : TxRecord := { Request := [], Headers := [104], Body := [98], At := 3 }

/-- A record with no headers but a valid correlation line. -/
def recNH : TxRecord := { Request := [114], Headers := [], Body := [], At := 0 }

/-- An exchange whose request head dumps fine but whose body draining
fails. -/
def exDrainFail : Exchange :=
  { method := [71], url := [117], dumpReq := some [104], hasBody := true,
    readBody := none, resLineErr := false, resHeadersErr := false,
    resLine := [72], resHeaders := [67], resBody := [111], tReq := 0,
    tRes := 1 }

/-- An exchange with no request body on which every step succeeds. -/
def exFull : Exchange :=
  { method := [71], url := [117], dumpReq := some [104], hasBody := false,
    readBody := none, resLineErr := false, resHeadersErr := false,
    resLine := [72], resHeaders := [67], resBody := [111], tReq := 0,
    tRes := 1 }

/-! Helper lemmas about the argument array and the reference converters. -/

theorem set_append_shift (l₁ l₂ : List Arg) (n : Nat) (v : Arg) :
    (l₁ ++ l₂).set (l₁.length + n) v = l₁ ++ l₂.set n v := by
  simp [List.set_append]

theorem replicate_set_zero (m : Nat) :
    (List.replicate m Arg.nilA).set 0 Arg.nilA
      = List.replicate m Arg.nilA := by
  cases m with
  | zero => rfl
  | succ m1 => simp [List.replicate_succ]

theorem set_append_len (l₁ l₂ : List Arg) (v : Arg) :
    (l₁ ++ l₂).set l₁.length v = l₁ ++ l₂.set 0 v := by
  have h := set_append_shift l₁ l₂ 0 v
  rw [Nat.add_zero] at h
  exact h

theorem set_row (m : Nat) (a b c d e : Arg) :
    (((((List.replicate (m + 5) Arg.nilA).set 0 a).set 1 b).set 2 c).set 3
        d).set 4 e
      = a :: b :: c :: d :: e :: List.replicate m Arg.nilA := by
  have h : List.replicate (m + 5) Arg.nilA
      = Arg.nilA :: Arg.nilA :: Arg.nilA :: Arg.nilA :: Arg.nilA ::
          List.replicate m Arg.nilA := by
    simp [show m + 5 = m + 4 + 1 from rfl, show m + 4 = m + 3 + 1 from rfl,
      show m + 3 = m + 2 + 1 from rfl, show m + 2 = m + 1 + 1 from rfl,
      List.replicate_succ]
  rw [h]
  rfl

theorem rowOf_length (env : Env) (b : GoStr) (rec : TxRecord) :
    (rowOf env b rec).length = numColumns := rfl

theorem convRows_length_le (env : Env) :
    ∀ (recs : List TxRecord) (i : Nat),
      (convRows env recs i).length ≤ recs.length := by
  intro recs
  induction recs with
  | nil => intro i; simp [convRows]
  | cons r rs ih =>
    intro i
    cases hg : env.gen i with
    | genErr => simp only [convRows, hg]; exact Nat.le_succ_of_le (ih (i + 1))
    | marshalErr => simp only [convRows, hg]; exact Nat.le_succ_of_le (ih (i + 1))
    | ok b =>
      simp only [convRows, hg, List.length_cons]
      exact Nat.succ_le_succ (ih (i + 1))

theorem convRows_convFails_length (env : Env) :
    ∀ (recs : List TxRecord) (i : Nat),
      (convRows env recs i).length + (convFails env recs i).length
        = recs.length := by
  intro recs
  induction recs with
  | nil => intro i; simp [convRows, convFails]
  | cons r rs ih =>
    intro i
    have hih := ih (i + 1)
    cases hg : env.gen i with
    | genErr =>
      simp only [convRows, convFails, hg, List.length_cons]
      omega
    | marshalErr =>
      simp only [convRows, convFails, hg, List.length_cons]
      omega
    | ok b =>
      simp only [convRows, convFails, hg, List.length_cons]
      omega

theorem convFails_sublist (env : Env) :
    ∀ (recs : List TxRecord) (i : Nat),
      List.Sublist (convFails env recs i) recs := by
  intro recs
  induction recs with
  | nil => intro i; simp [convFails]
  | cons r rs ih =>
    intro i
    cases hg : env.gen i with
    | genErr => simp only [convFails, hg]; exact List.Sublist.cons₂ r (ih (i + 1))
    | marshalErr =>
      simp only [convFails, hg]; exact List.Sublist.cons₂ r (ih (i + 1))
    | ok b => simp only [convFails, hg]; exact List.Sublist.cons r (ih (i + 1))

theorem convRows_flatten_length (env : Env) :
    ∀ (recs : List TxRecord) (i : Nat),
      (convRows env recs i).flatten.length
        = (convRows env recs i).length * numColumns := by
  intro recs
  induction recs with
  | nil => intro i; simp [convRows]
  | cons r rs ih =>
    intro i
    cases hg : env.gen i with
    | genErr => simp only [convRows, hg]; exact ih (i + 1)
    | marshalErr => simp only [convRows, hg]; exact ih (i + 1)
    | ok b =>
      simp only [convRows, hg, List.flatten_cons, List.length_append,
        List.length_cons, rowOf_length]
      rw [ih (i + 1)]
      ring

/-! One-step unfolding lemmas for the conversion loop. -/

theorem buildLoop_cons_other (env : Env) (t : Nat) (rest : List GoVal)
    (i count : Nat) (args : List Arg) (failed : List TxRecord)
    (err : Option GoErr) :
    buildLoop env (GoVal.other t :: rest) i count args failed err
      = BVResult.goPanic := by
  simp [buildLoop]

theorem buildLoop_cons_genErr (env : Env) (r : TxRecord) (rest : List GoVal)
    (i count : Nat) (args : List Arg) (failed : List TxRecord)
    (err : Option GoErr) (hg : env.gen i = GenResult.genErr) :
    buildLoop env (GoVal.txRec r :: rest) i count args failed err
      = buildLoop env rest (i + 1) count args (failed ++ [r])
          (some GoErr.uuidGenErr) := by
  simp [buildLoop, hg]

theorem buildLoop_cons_marshalErr (env : Env) (r : TxRecord)
    (rest : List GoVal) (i count : Nat) (args : List Arg)
    (failed : List TxRecord) (err : Option GoErr)
    (hg : env.gen i = GenResult.marshalErr) :
    buildLoop env (GoVal.txRec r :: rest) i count args failed err
      = buildLoop env rest (i + 1) count
          (args.set (count * numColumns) Arg.nilA) (failed ++ [r])
          (some GoErr.uuidMarshalErr) := by
  simp [buildLoop, hg]

theorem buildLoop_cons_ok_empty (env : Env) (r : TxRecord) (b : GoStr)
    (rest : List GoVal) (i count : Nat) (args : List Arg)
    (failed : List TxRecord) (err : Option GoErr)
    (hg : env.gen i = GenResult.ok b) (hreq : r.Request = []) :
    buildLoop env (GoVal.txRec r :: rest) i count args failed err
      = BVResult.ok 0 none [] (some GoErr.emptyRequest) := by
  simp [buildLoop, hg, hreq]

theorem buildLoop_cons_ok_hashErr (env : Env) (r : TxRecord) (b : GoStr)
    (e : GoErr) (rest : List GoVal) (i count : Nat) (args : List Arg)
    (failed : List TxRecord) (err : Option GoErr)
    (hg : env.gen i = GenResult.ok b) (hreq : r.Request ≠ [])
    (hw : env.writeErr r.Request = some e) :
    buildLoop env (GoVal.txRec r :: rest) i count args failed err
      = BVResult.ok 0 none [] (some e) := by
  simp [buildLoop, hg, hreq, hw]

theorem buildLoop_cons_ok (env : Env) (r : TxRecord) (b : GoStr)
    (rest : List GoVal) (i count : Nat) (args : List Arg)
    (failed : List TxRecord) (err : Option GoErr)
    (hg : env.gen i = GenResult.ok b) (hreq : r.Request ≠ [])
    (hw : env.writeErr r.Request = none) :
    buildLoop env (GoVal.txRec r :: rest) i count args failed err
      = buildLoop env rest (i + 1) (count + 1)
          (((((args.set (count * numColumns) (Arg.bytes b)).set
                (count * numColumns + 1)
                (Arg.str (hexPad16 (env.sum r.Request)))).set
              (count * numColumns + 2) (Arg.str r.Headers)).set
            (count * numColumns + 3) (bodyArg r.Body)).set
            (count * numColumns + 4) (Arg.str (env.fmtTime r.At)))
          failed none := by
  simp [buildLoop, hg, hreq, hw]

/-- Characterization of the conversion loop on a batch of `TxRecord`s that
never takes a batch-fatal return: starting from a filled prefix `pre` of
`count` rows and a tail of unfilled slots, the loop returns the converted
rows appended in input order, the per-record failures in input order, and
the status left by the last record. -/
theorem buildLoop_spec (env : Env) :
    ∀ (recs : List TxRecord) (i count : Nat) (pre : List Arg)
      (failed : List TxRecord) (err0 : Option GoErr) (k : Nat),
      batchSafe env recs i = true →
      pre.length = count * numColumns →
      buildLoop env (recs.map GoVal.txRec) i count
          (pre ++ List.replicate (recs.length * numColumns + k) Arg.nilA)
          failed err0 =
        BVResult.ok (count + (convRows env recs i).length)
          (some (pre ++ (convRows env recs i).flatten ++
            List.replicate
              ((recs.length - (convRows env recs i).length) * numColumns + k)
              Arg.nilA))
          (failed ++ convFails env recs i)
          (if recs.isEmpty then err0 else convErr env recs i) := by
  intro recs
  induction recs with
  | nil =>
    intro i count pre failed err0 k _ _
    simp [buildLoop, convRows, convFails]
  | cons r rs ih =>
    intro i count pre failed err0 k hs hl
    simp only [batchSafe, Bool.and_eq_true] at hs
    obtain ⟨hhead, htail⟩ := hs
    simp only [List.map_cons]
    have hle := convRows_length_le env rs (i + 1)
    cases hg : env.gen i with
    | genErr =>
      rw [buildLoop_cons_genErr env r _ i count _ failed err0 hg]
      have e1 : (r :: rs).length * numColumns + k
          = rs.length * numColumns + (k + numColumns) := by
        simp only [List.length_cons]; ring
      rw [e1, ih (i + 1) count pre (failed ++ [r]) (some GoErr.uuidGenErr)
        (k + numColumns) htail hl]
      congr 1
      · simp [convRows, hg]
      · have e2 : (rs.length - (convRows env rs (i + 1)).length) * numColumns
              + (k + numColumns)
            = ((r :: rs).length - (convRows env rs (i + 1)).length)
                * numColumns + k := by
          simp only [List.length_cons, numColumns] at hle ⊢
          omega
        rw [e2]
        simp [convRows, hg]
      · simp [convFails, hg]
      · simp [convErr, recStatus, hg]
    | marshalErr =>
      rw [buildLoop_cons_marshalErr env r _ i count _ failed err0 hg, ← hl,
        set_append_len, replicate_set_zero]
      have e1 : (r :: rs).length * numColumns + k
          = rs.length * numColumns + (k + numColumns) := by
        simp only [List.length_cons]; ring
      rw [e1, ih (i + 1) count pre (failed ++ [r]) (some GoErr.uuidMarshalErr)
        (k + numColumns) htail hl]
      congr 1
      · simp [convRows, hg]
      · have e2 : (rs.length - (convRows env rs (i + 1)).length) * numColumns
              + (k + numColumns)
            = ((r :: rs).length - (convRows env rs (i + 1)).length)
                * numColumns + k := by
          simp only [List.length_cons, numColumns] at hle ⊢
          omega
        rw [e2]
        simp [convRows, hg]
      · simp [convFails, hg]
      · simp [convErr, recStatus, hg]
    | ok b =>
      rw [hg] at hhead
      have hreq : r.Request ≠ [] := by
        intro hnil
        rw [hnil] at hhead
        simp [isOkGen] at hhead
      have hw : env.writeErr r.Request = none := by
        rcases hn : env.writeErr r.Request with _ | e
        · rfl
        · rw [hn] at hhead
          rcases hrq : r.Request with _ | ⟨c, cs⟩
          · exact absurd hrq hreq
          · rw [hrq] at hhead
            simp [isOkGen] at hhead
      rw [buildLoop_cons_ok env r b _ i count _ failed err0 hg hreq hw, ← hl,
        set_append_len, set_append_shift, set_append_shift, set_append_shift,
        set_append_shift]
      have eM : (r :: rs).length * numColumns + k
          = (rs.length * numColumns + k) + 5 := by
        simp only [List.length_cons, numColumns]; ring
      rw [eM, set_row]
      have hrow : (Arg.bytes b :: Arg.str (hexPad16 (env.sum r.Request)) ::
            Arg.str r.Headers :: bodyArg r.Body ::
            Arg.str (env.fmtTime r.At) ::
            List.replicate (rs.length * numColumns + k) Arg.nilA)
          = rowOf env b r ++
            List.replicate (rs.length * numColumns + k) Arg.nilA := rfl
      rw [hrow, ← List.append_assoc]
      have hlen2 : (pre ++ rowOf env b r).length
          = (count + 1) * numColumns := by
        simp only [List.length_append, rowOf_length, hl]
        ring
      rw [ih (i + 1) (count + 1) (pre ++ rowOf env b r) failed none k htail
        hlen2]
      congr 1
      · simp [convRows, hg]
        ring
      · have e2 : ((r :: rs).length
              - (convRows env (r :: rs) i).length) * numColumns + k
            = (rs.length - (convRows env rs (i + 1)).length)
                * numColumns + k := by
          simp only [convRows, hg, List.length_cons, Nat.succ_sub_succ]
        rw [e2]
        simp [convRows, hg, List.append_assoc]
      · simp [convFails, hg]
      · simp [convErr, recStatus, hg]

/-- Behaviour of `BuildValues` on a batch of `TxRecord`s that never takes a batch-fatal
return: rows in input order, the per-record failures in input order, and
the final `err` equal to the status left by the last record. -/
theorem BuildValues_spec (env : Env) (recs : List TxRecord)
    (hs : batchSafe env recs 0 = true) :
    BuildValues env (recs.map GoVal.txRec) =
      BVResult.ok (convRows env recs 0).length
        (some ((convRows env recs 0).flatten ++
          List.replicate
            ((recs.length - (convRows env recs 0).length) * numColumns)
            Arg.nilA))
        (convFails env recs 0) (convErr env recs 0) := by
  have h := buildLoop_spec env recs 0 0 [] [] none 0 hs (by simp)
  simp only [List.nil_append, Nat.add_zero, Nat.zero_add] at h
  unfold BuildValues
  rw [List.length_map]
  rw [h]
  cases recs with
  | nil => simp [convErr]
  | cons r rs => simp

theorem allGenOk_spec (env : Env) :
    ∀ (recs : List TxRecord) (i : Nat), allGenOk env recs i = true →
      (convRows env recs i).length = recs.length ∧
        convFails env recs i = [] ∧ convErr env recs i = none := by
  intro recs
  induction recs with
  | nil => intro i _; simp [convRows, convFails, convErr]
  | cons r rs ih =>
    intro i hok
    simp only [allGenOk, Bool.and_eq_true] at hok
    obtain ⟨hhead, htail⟩ := hok
    rcases hg : env.gen i with _ | _ | b
    · rw [hg] at hhead; simp [isOkGen] at hhead
    · rw [hg] at hhead; simp [isOkGen] at hhead
    · obtain ⟨h1, h2, h3⟩ := ih (i + 1) htail
      refine ⟨?_, ?_, ?_⟩
      · simp [convRows, hg, h1]
      · simp [convFails, hg, h2]
      · rcases rs with _ | ⟨r2, rs2⟩
        · simp [convErr, recStatus, hg]
        · simp only [convErr, List.isEmpty_cons, if_false, Bool.false_eq_true]
          simpa [convErr] using h3

theorem genOkExcept_spec (env : Env) :
    ∀ (recs : List TxRecord) (i p : Nat) (hp : p < recs.length),
      env.gen (i + p) = GenResult.genErr →
      genOkExcept env recs i p = true →
      (convRows env recs i).length = recs.length - 1 ∧
        convFails env recs i = [recs.get ⟨p, hp⟩] := by
  intro recs
  induction recs with
  | nil => intro i p hp; simp at hp
  | cons r rs ih =>
    intro i p hp hfail hok
    cases p with
    | zero =>
      rw [Nat.add_zero] at hfail
      simp only [genOkExcept] at hok
      obtain ⟨h1, h2, _⟩ := allGenOk_spec env rs (i + 1) hok
      constructor
      · simp [convRows, hfail, h1]
      · simp [convFails, hfail, h2]
    | succ q =>
      simp only [genOkExcept, Bool.and_eq_true] at hok
      obtain ⟨hhead, htail⟩ := hok
      rcases hg : env.gen i with _ | _ | b
      · rw [hg] at hhead; simp [isOkGen] at hhead
      · rw [hg] at hhead; simp [isOkGen] at hhead
      · have hq : q < rs.length := by
          simp only [List.length_cons] at hp
          omega
        have hfail2 : env.gen (i + 1 + q) = GenResult.genErr := by
          have : i + 1 + q = i + (q + 1) := by omega
          rw [this]
          exact hfail
        obtain ⟨h1, h2⟩ := ih (i + 1) q hq hfail2 htail
        have hrs : 1 ≤ rs.length := by omega
        constructor
        · simp only [convRows, hg, List.length_cons, h1]
          omega
        · simp [convFails, hg, h2]

/-- The final `err` of a batch-fatal-free run is the status of the last
record. -/
theorem convErr_eq_last (env : Env) :
    ∀ (recs : List TxRecord) (i : Nat), recs ≠ [] →
      convErr env recs i = recStatus env (i + (recs.length - 1)) := by
  intro recs
  induction recs with
  | nil => intro i h; exact absurd rfl h
  | cons r rs ih =>
    intro i _
    rcases rs with _ | ⟨r2, rs2⟩
    · simp [convErr, recStatus]
    · have h2 := ih (i + 1) (by simp)
      simp only [convErr, List.isEmpty_cons, if_false, Bool.false_eq_true,
        List.length_cons] at h2 ⊢
      rw [h2]
      congr 1
      omega

theorem convRows_ne_nil_of_last_ok (env : Env) :
    ∀ (recs : List TxRecord) (i : Nat), recs ≠ [] →
      isOkGen (env.gen (i + (recs.length - 1))) = true →
      convRows env recs i ≠ [] := by
  intro recs
  induction recs with
  | nil => intro i h; exact absurd rfl h
  | cons r rs ih =>
    intro i _ hlast
    rcases rs with _ | ⟨r2, rs2⟩
    · have hlast2 : isOkGen (env.gen i) = true := by simpa using hlast
      rcases hg : env.gen i with _ | _ | b
      · rw [hg] at hlast2; simp [isOkGen] at hlast2
      · rw [hg] at hlast2; simp [isOkGen] at hlast2
      · simp [convRows, hg]
    · have hlast2 : isOkGen (env.gen (i + 1 + ((r2 :: rs2).length - 1)))
          = true := by
        have e : i + 1 + ((r2 :: rs2).length - 1)
            = i + ((r :: r2 :: rs2).length - 1) := by
          simp only [List.length_cons]
          omega
        rw [e]
        exact hlast
      have h2 := ih (i + 1) (by simp) hlast2
      rcases hg : env.gen i with _ | _ | b
      · simpa [convRows, hg] using h2
      · simpa [convRows, hg] using h2
      · simp [convRows, hg]

theorem validReqs_batchSafe (env : Env) :
    ∀ (recs : List TxRecord) (i : Nat), validReqs env recs = true →
      batchSafe env recs i = true := by
  intro recs
  induction recs with
  | nil => intro i _; simp [batchSafe]
  | cons r rs ih =>
    intro i hv
    simp only [validReqs, Bool.and_eq_true] at hv
    simp only [batchSafe, Bool.and_eq_true]
    exact ⟨by simp [hv.1.1, hv.1.2], ih (i + 1) hv.2⟩

/-- On a batch whose elements are all `TxRecord`s the loop never panics. -/
theorem buildLoop_no_panic (env : Env) :
    ∀ (recs : List TxRecord) (i count : Nat) (args : List Arg)
      (failed : List TxRecord) (err : Option GoErr),
      ∃ c a f e,
        buildLoop env (recs.map GoVal.txRec) i count args failed err
          = BVResult.ok c a f e := by
  intro recs
  induction recs with
  | nil => intro i count args failed err; exact ⟨_, _, _, _, rfl⟩
  | cons r rs ih =>
    intro i count args failed err
    rcases hg : env.gen i with _ | _ | b
    · rw [List.map_cons, buildLoop_cons_genErr env r _ i count _ failed err hg]
      exact ih (i + 1) count args (failed ++ [r]) (some GoErr.uuidGenErr)
    · rw [List.map_cons,
        buildLoop_cons_marshalErr env r _ i count _ failed err hg]
      exact ih (i + 1) count _ (failed ++ [r]) (some GoErr.uuidMarshalErr)
    · rcases hrq : r.Request with _ | ⟨c0, cs⟩
      · rw [List.map_cons,
          buildLoop_cons_ok_empty env r b _ i count _ failed err hg hrq]
        exact ⟨_, _, _, _, rfl⟩
      · have hreq : r.Request ≠ [] := by rw [hrq]; simp
        rcases hw : env.writeErr r.Request with _ | e0
        · rw [List.map_cons,
            buildLoop_cons_ok env r b _ i count _ failed err hg hreq hw]
          exact ih (i + 1) (count + 1) _ failed none
        · rw [List.map_cons,
            buildLoop_cons_ok_hashErr env r b e0 _ i count _ failed err hg
              hreq hw]
          exact ⟨_, _, _, _, rfl⟩

/-- If the loop finishes a non-empty all-`TxRecord` batch with a nil final
error, the last record was converted, so at least one row was produced and
the argument slice is non-nil. -/
theorem buildLoop_count_pos (env : Env) :
    ∀ (recs : List TxRecord) (i count : Nat) (args : List Arg)
      (failed : List TxRecord) (err : Option GoErr) (c : Nat)
      (a : Option (List Arg)) (f : List TxRecord),
      recs ≠ [] →
      buildLoop env (recs.map GoVal.txRec) i count args failed err
        = BVResult.ok c a f none →
      1 ≤ c ∧ ∃ l, a = some l := by
  intro recs
  induction recs with
  | nil => intro i count args failed err c a f h; exact absurd rfl h
  | cons r rs ih =>
    intro i count args failed err c a f _ hrun
    rw [List.map_cons] at hrun
    rcases hg : env.gen i with _ | _ | b
    · rw [buildLoop_cons_genErr env r _ i count _ failed err hg] at hrun
      rcases rs with _ | ⟨r2, rs2⟩
      · simp only [List.map_nil, buildLoop, BVResult.ok.injEq] at hrun
        exact absurd hrun.2.2.2.symm (by simp)
      · exact ih (i + 1) count args (failed ++ [r]) (some GoErr.uuidGenErr)
          c a f (by simp) hrun
    · rw [buildLoop_cons_marshalErr env r _ i count _ failed err hg] at hrun
      rcases rs with _ | ⟨r2, rs2⟩
      · simp only [List.map_nil, buildLoop, BVResult.ok.injEq] at hrun
        exact absurd hrun.2.2.2.symm (by simp)
      · exact ih (i + 1) count _ (failed ++ [r]) (some GoErr.uuidMarshalErr)
          c a f (by simp) hrun
    · rcases hrq : r.Request with _ | ⟨c0, cs⟩
      · rw [buildLoop_cons_ok_empty env r b _ i count _ failed err hg hrq]
          at hrun
        simp only [BVResult.ok.injEq] at hrun
        exact absurd hrun.2.2.2.symm (by simp)
      · have hreq : r.Request ≠ [] := by rw [hrq]; simp
        rcases hw : env.writeErr r.Request with _ | e0
        · rw [buildLoop_cons_ok env r b _ i count _ failed err hg hreq hw]
            at hrun
          rcases rs with _ | ⟨r2, rs2⟩
          · simp only [List.map_nil, buildLoop, BVResult.ok.injEq] at hrun
            refine ⟨by omega, ?_⟩
            exact ⟨_, hrun.2.1.symm⟩
          · have hih := ih (i + 1) (count + 1) _ failed none c a f (by simp)
              hrun
            exact ⟨by omega, hih.2⟩
        · rw [buildLoop_cons_ok_hashErr env r b e0 _ i count _ failed err hg
              hreq hw] at hrun
          simp only [BVResult.ok.injEq] at hrun
          exact absurd hrun.2.2.2.symm (by simp)

/-- If the hasher never fails and some record with an empty correlation line
has a succeeding identity generation and id-marshaling, the loop takes the
batch-fatal `empty_request` return. -/
theorem buildLoop_empty_req (env : Env) (htot : ∀ s, env.writeErr s = none) :
    ∀ (recs : List TxRecord) (i count : Nat) (args : List Arg)
      (failed : List TxRecord) (err : Option GoErr) (p : Nat)
      (rp : TxRecord),
      recs.get? p = some rp → rp.Request = [] →
      isOkGen (env.gen (i + p)) = true →
      buildLoop env (recs.map GoVal.txRec) i count args failed err
        = BVResult.ok 0 none [] (some GoErr.emptyRequest) := by
  intro recs
  induction recs with
  | nil => intro i count args failed err p rp hget; simp at hget
  | cons r rs ih =>
    intro i count args failed err p rp hget hemp hok
    rw [List.map_cons]
    cases p with
    | zero =>
      simp only [List.get?] at hget
      injection hget with hget
      rw [← hget] at hemp
      rw [Nat.add_zero] at hok
      rcases hg : env.gen i with _ | _ | b
      · rw [hg] at hok; simp [isOkGen] at hok
      · rw [hg] at hok; simp [isOkGen] at hok
      · exact buildLoop_cons_ok_empty env r b _ i count _ failed err hg hemp
    | succ q =>
      simp only [List.get?] at hget
      have hok2 : isOkGen (env.gen (i + 1 + q)) = true := by
        have e : i + 1 + q = i + (q + 1) := by omega
        rw [e]
        exact hok
      rcases hg : env.gen i with _ | _ | b
      · rw [buildLoop_cons_genErr env r _ i count _ failed err hg]
        exact ih (i + 1) count args (failed ++ [r]) (some GoErr.uuidGenErr) q
          rp hget hemp hok2
      · rw [buildLoop_cons_marshalErr env r _ i count _ failed err hg]
        exact ih (i + 1) count _ (failed ++ [r]) (some GoErr.uuidMarshalErr) q
          rp hget hemp hok2
      · rcases hrq : r.Request with _ | ⟨c0, cs⟩
        · exact buildLoop_cons_ok_empty env r b _ i count _ failed err hg hrq
        · have hreq : r.Request ≠ [] := by rw [hrq]; simp
          rw [buildLoop_cons_ok env r b _ i count _ failed err hg hreq
            (htot r.Request)]
          exact ih (i + 1) (count + 1) _ failed none q rp hget hemp hok2

/-- If the hasher never fails and the batch holds a non-`TxRecord` element
behind a safe prefix, the loop reaches it and panics on the failed type
assertion. -/
theorem buildLoop_other_panics (env : Env)
    (htot : ∀ s, env.writeErr s = none) :
    ∀ (vals : List GoVal) (i count : Nat) (args : List Arg)
      (failed : List TxRecord) (err : Option GoErr) (q t : Nat),
      vals.get? q = some (GoVal.other t) → prefixSafe vals q = true →
      buildLoop env vals i count args failed err = BVResult.goPanic := by
  intro vals
  induction vals with
  | nil => intro i count args failed err q t hget; simp at hget
  | cons d rest ih =>
    intro i count args failed err q t hget hpre
    cases q with
    | zero =>
      simp only [List.get?] at hget
      injection hget with hget
      subst hget
      exact buildLoop_cons_other env t rest i count args failed err
    | succ q1 =>
      simp only [List.get?] at hget
      rcases d with r | t0
      · simp only [prefixSafe, Bool.and_eq_true] at hpre
        have hreq : r.Request ≠ [] := by
          intro hnil
          rw [hnil] at hpre
          simp at hpre
        rcases hg : env.gen i with _ | _ | b
        · rw [buildLoop_cons_genErr env r _ i count _ failed err hg]
          exact ih (i + 1) count args (failed ++ [r]) (some GoErr.uuidGenErr)
            q1 t hget hpre.2
        · rw [buildLoop_cons_marshalErr env r _ i count _ failed err hg]
          exact ih (i + 1) count _ (failed ++ [r]) (some GoErr.uuidMarshalErr)
            q1 t hget hpre.2
        · rw [buildLoop_cons_ok env r b _ i count _ failed err hg hreq
            (htot r.Request)]
          exact ih (i + 1) (count + 1) _ failed none q1 t hget hpre.2
      · simp [prefixSafe] at hpre

theorem strRepeat_length (s : GoStr) (n : Nat) :
    (strRepeat s n).length = n * s.length := by
  induction n with
  | zero => simp [strRepeat]
  | succ m ih =>
    simp only [strRepeat, List.replicate_succ, List.flatten_cons,
      List.length_append] at ih ⊢
    rw [ih]
    ring

/-- Any `BuildValues` error makes the statement builder return `("", nil)`. -/
theorem SqlBuilder_err (env : Env) (data : List GoVal) (c : Nat)
    (a : Option (List Arg)) (f : List TxRecord) (e : GoErr)
    (h : BuildValues env data = BVResult.ok c a f (some e)) :
    SqlBuilder env data = SBResult.ok [] none := by
  unfold SqlBuilder
  rw [h]

/-- With no `BuildValues` error and at least one converted row, the builder
renders the multi-row INSERT and passes the argument list through. -/
theorem SqlBuilder_success (env : Env) (data : List GoVal) (c : Nat)
    (a : List Arg) (f : List TxRecord)
    (h : BuildValues env data = BVResult.ok c (some a) f none)
    (hc : 1 ≤ c) :
    SqlBuilder env data = SBResult.ok (insertStmtOf c) (some a) := by
  have h1 : goSliceFrom1 (strRepeat (litBytes ",?") numColumns)
      = some ((strRepeat (litBytes ",?") numColumns).drop 1) := by
    rfl
  have hlen : 1 ≤ (strRepeat (litBytes ",(" ++
      (strRepeat (litBytes ",?") numColumns).drop 1 ++ litBytes ")") c).length := by
    rw [strRepeat_length]
    have h12 : (litBytes ",(" ++ (strRepeat (litBytes ",?") numColumns).drop 1
        ++ litBytes ")").length = 12 := by rfl
    rw [h12]
    omega
  have h2 : goSliceFrom1 (strRepeat (litBytes ",(" ++
      (strRepeat (litBytes ",?") numColumns).drop 1 ++ litBytes ")") c)
      = some ((strRepeat (litBytes ",(" ++
          (strRepeat (litBytes ",?") numColumns).drop 1 ++ litBytes ")") c).drop
            1) := by
    unfold goSliceFrom1
    rw [if_pos hlen]
  simp only [SqlBuilder, h, h1, h2, insertStmtOf]

theorem insertStmtOf_ne_nil (c : Nat) : insertStmtOf c ≠ [] := by
  unfold insertStmtOf
  intro h
  rcases List.append_eq_nil.mp h with ⟨h1, _⟩
  rcases List.append_eq_nil.mp h1 with ⟨h2, _⟩
  revert h2
  decide

/-! The claims. -/

/-- Claim C1, counterexample: a batch of two records in which the second
(last) record fails identity generation and the first is fully valid. The
per-record failure leaves a non-nil `err`, so the statement builder returns
an empty statement and nil args instead of the non-empty INSERT the claim
requires. -/
theorem C1_counterexample :
    SqlBuilder (envFailAt 1) [GoVal.txRec recV, GoVal.txRec recV]
      = SBResult.ok [] none := by decide

/-- Claim C1 (amended): for a batch with identity-generation failures whose
remaining records are valid, the outcome depends on the last record: if the
last record fails generation the builder drops the whole batch, returning an
empty statement and nil args; if the last record converts (clearing the
builder's `err` via the hasher write), the builder returns a non-empty
INSERT whose placeholder groups cover exactly the converted rows, and an
argument list whose first `rowCount*numColumns` entries are those rows. -/
theorem C1_amended (env : Env) (recs : List TxRecord) (hne : recs ≠ [])
    (hsafe : batchSafe env recs 0 = true)
    (_hsome : ∃ p, p < recs.length ∧ env.gen p = GenResult.genErr) :
    (env.gen (recs.length - 1) = GenResult.genErr →
      SqlBuilder env (recs.map GoVal.txRec) = SBResult.ok [] none) ∧
    (isOkGen (env.gen (recs.length - 1)) = true →
      ∃ a, SqlBuilder env (recs.map GoVal.txRec)
          = SBResult.ok (insertStmtOf (convRows env recs 0).length) (some a) ∧
        insertStmtOf (convRows env recs 0).length ≠ [] ∧
        a.take ((convRows env recs 0).length * numColumns)
          = (convRows env recs 0).flatten) := by
  have hbv := BuildValues_spec env recs hsafe
  have herr := convErr_eq_last env recs 0 hne
  rw [Nat.zero_add] at herr
  constructor
  · intro hlast
    have he : convErr env recs 0 = some GoErr.uuidGenErr := by
      rw [herr]
      simp [recStatus, hlast]
    rw [he] at hbv
    exact SqlBuilder_err env _ _ _ _ _ hbv
  · intro hlast
    have he : convErr env recs 0 = none := by
      rw [herr]
      rcases hg : env.gen (recs.length - 1) with _ | _ | b
      · rw [hg] at hlast; simp [isOkGen] at hlast
      · rw [hg] at hlast; simp [isOkGen] at hlast
      · simp [recStatus, hg]
    rw [he] at hbv
    have hc : 1 ≤ (convRows env recs 0).length := by
      have hnn := convRows_ne_nil_of_last_ok env recs 0 hne
        (by rw [Nat.zero_add]; exact hlast)
      rcases hcr : convRows env recs 0 with _ | ⟨x, xs⟩
      · exact absurd hcr hnn
      · simp
    refine ⟨_, SqlBuilder_success env _ _ _ _ hbv hc, insertStmtOf_ne_nil _,
      ?_⟩
    rw [← convRows_flatten_length]
    exact List.take_left _ _

/-- Claim C1, witness for the amended claim: generation fails at index 0 of
a two-record batch and the last record is valid, so a one-row INSERT with
the converted row is produced. -/
theorem C1_witness :
    ∃ a, SqlBuilder (envFailAt 0) ([recV, recV].map GoVal.txRec)
        = SBResult.ok
          (insertStmtOf (convRows (envFailAt 0) [recV, recV] 0).length)
          (some a) ∧
      insertStmtOf (convRows (envFailAt 0) [recV, recV] 0).length ≠ [] ∧
      a.take ((convRows (envFailAt 0) [recV, recV] 0).length * numColumns)
        = (convRows (envFailAt 0) [recV, recV] 0).flatten :=
  (C1_amended (envFailAt 0) [recV, recV] (by decide) (by decide)
    ⟨0, by decide, rfl⟩).2 (by decide)

/-- Claim C2, counterexample: a single-record batch whose only record has an
empty correlation line but fails identity generation. The empty-line check
is never reached: the builder returns non-nil args (five nil slots), the
record in `failedRecords`, and the UUID error instead of the distinct
"empty request" error. -/
theorem C2_counterexample :
    BuildValues envFail [GoVal.txRec recE]
        = BVResult.ok 0 (some (List.replicate 5 Arg.nilA)) [recE]
          (some GoErr.uuidGenErr) ∧
      some (List.replicate 5 Arg.nilA) ≠ (none : Option (List Arg)) ∧
      GoErr.uuidGenErr ≠ GoErr.emptyRequest := by decide

/-- Claim C2 (amended): if the hasher never fails (as the wired xxhash
does not) and the batch contains a record with an empty correlation line
whose identity generation and id-marshaling succeed, `BuildValues` returns
`rowCount = 0`, nil args, nil failed records and the distinct
`empty_request` error, regardless of the validity of the other records. -/
theorem C2_amended (env : Env) (recs : List TxRecord) (p : Nat)
    (rp : TxRecord) (htot : ∀ s, env.writeErr s = none)
    (hget : recs.get? p = some rp) (hemp : rp.Request = [])
    (hok : isOkGen (env.gen p) = true) :
    BuildValues env (recs.map GoVal.txRec)
      = BVResult.ok 0 none [] (some GoErr.emptyRequest) := by
  unfold BuildValues
  exact buildLoop_empty_req env htot recs 0 0 _ [] none p rp hget hemp
    (by rw [Nat.zero_add]; exact hok)

/-- Claim C2, witness: a batch with a valid record followed by an
empty-line record with succeeding generation ends in the batch-fatal
`empty_request` return. -/
theorem C2_witness :
    BuildValues envOk ([recV, recE].map GoVal.txRec)
      = BVResult.ok 0 none [] (some GoErr.emptyRequest) :=
  C2_amended envOk [recV, recE] 1 recE (fun _ => rfl) rfl rfl (by decide)

/-- Claim C3 (confirmed): in a batch of N records where exactly the record
at position p fails identity generation and the rest are valid,
`BuildValues` returns `rowCount = N - 1` and `failedRecords` containing
exactly that one record. -/
theorem C3 (env : Env) (recs : List TxRecord) (p : Nat)
    (hp : p < recs.length) (hsafe : batchSafe env recs 0 = true)
    (hfail : env.gen p = GenResult.genErr)
    (hok : genOkExcept env recs 0 p = true) :
    ∃ a e, BuildValues env (recs.map GoVal.txRec)
        = BVResult.ok (recs.length - 1) (some a) [recs.get ⟨p, hp⟩] e := by
  have hbv := BuildValues_spec env recs hsafe
  obtain ⟨h1, h2⟩ := genOkExcept_spec env recs 0 p hp
    (by rw [Nat.zero_add]; exact hfail) hok
  rw [h1, h2] at hbv
  exact ⟨_, _, hbv⟩

/-- Claim C3, witness: two records, generation failing at position 0. -/
theorem C3_witness :
    ∃ a e, BuildValues (envFailAt 0) ([recV, recV].map GoVal.txRec)
        = BVResult.ok (([recV, recV] : List TxRecord).length - 1) (some a)
          [([recV, recV] : List TxRecord).get ⟨0, by decide⟩] e :=
  C3 (envFailAt 0) [recV, recV] 0 (by decide) (by decide) rfl (by decide)

/-- Claim C4 (confirmed): for a batch of N valid records (non-empty
correlation lines, succeeding hasher writes, succeeding identity
generation), `BuildValues` returns `rowCount = N`, a flat argument list of
exactly `5*N` entries, no failed records, and a nil error. -/
theorem C4 (env : Env) (recs : List TxRecord)
    (hv : validReqs env recs = true) (hok : allGenOk env recs 0 = true) :
    ∃ a, BuildValues env (recs.map GoVal.txRec)
        = BVResult.ok recs.length (some a) [] none ∧
      a.length = recs.length * numColumns := by
  have hbv := BuildValues_spec env recs (validReqs_batchSafe env recs 0 hv)
  obtain ⟨h1, h2, h3⟩ := allGenOk_spec env recs 0 hok
  rw [h1, h2, h3] at hbv
  rw [Nat.sub_self] at hbv
  simp only [Nat.zero_mul, List.replicate_zero, List.append_nil] at hbv
  refine ⟨(convRows env recs 0).flatten, hbv, ?_⟩
  rw [convRows_flatten_length, h1]

/-- Claim C4, witness: a two-record all-valid batch yields two rows and ten
argument entries. -/
theorem C4_witness :
    ∃ a, BuildValues envOk ([recV, recNH].map GoVal.txRec)
        = BVResult.ok ([recV, recNH] : List TxRecord).length (some a) []
          none ∧
      a.length = ([recV, recNH] : List TxRecord).length * numColumns :=
  C4 envOk [recV, recNH] (by decide) (by decide)

/-- Claim C5, counterexample: a single-record batch whose record fails
identity generation. `rowCount = 0` but the returned argument list has the
pre-allocated `5 * batchSize = 5` entries, not `rowCount * 5 = 0`. -/
theorem C5_counterexample :
    BuildValues envFail [GoVal.txRec recV]
        = BVResult.ok 0 (some (List.replicate 5 Arg.nilA)) [recV]
          (some GoErr.uuidGenErr) ∧
      (List.replicate 5 Arg.nilA).length ≠ 0 * numColumns := by decide

/-- Claim C5 (amended): for every batch of `TxRecord`s that never takes a
batch-fatal return, `flatArgs` has `batchSize * 5` entries (not
`rowCount * 5`): its first `rowCount * 5` entries are the converted rows in
column order `(id, req_hash, headers, body, created_at)` and the rest are
nil placeholders, while `failedRecords` holds exactly the records whose
identity generation or id-marshaling failed. -/
theorem C5_amended (env : Env) (recs : List TxRecord)
    (hsafe : batchSafe env recs 0 = true) :
    ∃ a, BuildValues env (recs.map GoVal.txRec)
        = BVResult.ok (convRows env recs 0).length (some a)
          (convFails env recs 0) (convErr env recs 0) ∧
      a.length = recs.length * numColumns ∧
      a.take ((convRows env recs 0).length * numColumns)
        = (convRows env recs 0).flatten := by
  have hbv := BuildValues_spec env recs hsafe
  refine ⟨_, hbv, ?_, ?_⟩
  · rw [List.length_append, convRows_flatten_length, List.length_replicate]
    have hle := convRows_length_le env recs 0
    have h5 : numColumns = 5 := rfl
    rw [h5]
    omega
  · rw [← convRows_flatten_length]
    exact List.take_left _ _

/-- Claim C5, witness for the amended claim: one generation failure between
two valid records; three records give fifteen argument slots, ten of them
the two converted rows. -/
theorem C5_witness :
    ∃ a, BuildValues (envFailAt 1) ([recV, recV, recV].map GoVal.txRec)
        = BVResult.ok (convRows (envFailAt 1) [recV, recV, recV] 0).length
          (some a) (convFails (envFailAt 1) [recV, recV, recV] 0)
          (convErr (envFailAt 1) [recV, recV, recV] 0) ∧
      a.length = ([recV, recV, recV] : List TxRecord).length * numColumns ∧
      a.take ((convRows (envFailAt 1) [recV, recV, recV] 0).length
          * numColumns)
        = (convRows (envFailAt 1) [recV, recV, recV] 0).flatten :=
  C5_amended (envFailAt 1) [recV, recV, recV] (by decide)

/-- Claim C6 (confirmed): on every batch of `TxRecord`s that never takes
the batch-fatal return, every input record is accounted for either among
the `rowCount` converted rows or in `failedRecords`
(`rowCount + |failedRecords| = N`); records are processed in input order:
`failedRecords` is a sublist of the input and the first `rowCount * 5`
argument entries are the converted rows in input order. -/
theorem C6 (env : Env) (recs : List TxRecord)
    (hsafe : batchSafe env recs 0 = true) :
    ∃ a e, BuildValues env (recs.map GoVal.txRec)
        = BVResult.ok (convRows env recs 0).length (some a)
          (convFails env recs 0) e ∧
      (convRows env recs 0).length + (convFails env recs 0).length
        = recs.length ∧
      a.take ((convRows env recs 0).length * numColumns)
        = (convRows env recs 0).flatten ∧
      List.Sublist (convFails env recs 0) recs := by
  have hbv := BuildValues_spec env recs hsafe
  refine ⟨_, _, hbv, convRows_convFails_length env recs 0, ?_,
    convFails_sublist env recs 0⟩
  rw [← convRows_flatten_length]
  exact List.take_left _ _

/-- Claim C6, witness: a batch with generation failures at indices 0 and 2
among four records. -/
theorem C6_witness :
    ∃ a e, BuildValues (envFailAt 2) ([recV, recV, recV, recNH].map
          GoVal.txRec)
        = BVResult.ok
          (convRows (envFailAt 2) [recV, recV, recV, recNH] 0).length
          (some a) (convFails (envFailAt 2) [recV, recV, recV, recNH] 0) e ∧
      (convRows (envFailAt 2) [recV, recV, recV, recNH] 0).length
          + (convFails (envFailAt 2) [recV, recV, recV, recNH] 0).length
        = ([recV, recV, recV, recNH] : List TxRecord).length ∧
      a.take ((convRows (envFailAt 2) [recV, recV, recV, recNH] 0).length
          * numColumns)
        = (convRows (envFailAt 2) [recV, recV, recV, recNH] 0).flatten ∧
      List.Sublist (convFails (envFailAt 2) [recV, recV, recV, recNH] 0)
        [recV, recV, recV, recNH] :=
  C6 (envFailAt 2) [recV, recV, recV, recNH] (by decide)

/-- Claim C7, counterexample: an exchange whose request head serializes
fine but whose body draining fails pushes zero records, not the one
request record the claim requires. -/
theorem C7_counterexample :
    RequestLogger exDrainFail = ([], some 400) ∧
      ([] : List TxRecord).length ≠ 1 := by decide

/-- Claim C7 (amended): the request record is pushed only after body
draining, so zero records are pushed when request-head serialization or
body draining fails (the exchange aborts with 400); exactly one record —
the request record — is pushed when response rendering fails after the
push (abort with 500); two records are pushed on full success. -/
theorem C7_amended (ex : Exchange) :
    (ex.dumpReq = none → RequestLogger ex = ([], some 400)) ∧
    (∀ h, ex.dumpReq = some h → ex.hasBody = true → ex.readBody = none →
      RequestLogger ex = ([], some 400)) ∧
    (∀ h b, ex.dumpReq = some h →
      (if ex.hasBody then ex.readBody else some []) = some b →
      (ex.resLineErr = true ∨ ex.resHeadersErr = true) →
      RequestLogger ex
        = ([{ Request := ex.method ++ [32] ++ ex.url, Headers := h,
              Body := b, At := ex.tReq }], some 500)) ∧
    (∀ h b, ex.dumpReq = some h →
      (if ex.hasBody then ex.readBody else some []) = some b →
      ex.resLineErr = false → ex.resHeadersErr = false →
      (RequestLogger ex).1.length = 2) := by
  refine ⟨?_, ?_, ?_, ?_⟩
  · intro hd
    simp [RequestLogger, hd]
  · intro h hd hb hr
    simp [RequestLogger, hd, hb, hr]
  · intro h b hd hbody hres
    rcases hl : ex.resLineErr with _ | _
    · rcases hh : ex.resHeadersErr with _ | _
      · rcases hres with h1 | h1
        · rw [hl] at h1; exact absurd h1 (by simp)
        · rw [hh] at h1; exact absurd h1 (by simp)
      · simp [RequestLogger, hd, hbody, hl, hh]
    · simp [RequestLogger, hd, hbody, hl]
  · intro h b hd hbody h1 h2
    simp [RequestLogger, hd, hbody, h1, h2]

/-- Claim C7, witness: the drain-failure exchange pushes zero records and
the fully successful exchange pushes two. -/
theorem C7_witness :
    RequestLogger exDrainFail = ([], some 400) ∧
      (RequestLogger exFull).1.length = 2 :=
  ⟨(C7_amended exDrainFail).2.1 [104] rfl rfl rfl,
   (C7_amended exFull).2.2.2 [104] [] rfl rfl rfl rfl⟩

/-- Claim C8, counterexample: a batch holding a non-`TxRecord` element
makes `BuildValues` panic on the failed type assertion instead of
recording a placeholder failure and continuing. -/
theorem C8_counterexample :
    BuildValues envOk [GoVal.other 0] = BVResult.goPanic := by decide

/-- Claim C8 (amended): with a hasher that never fails, a batch containing
a non-`TxRecord` element behind a prefix of `TxRecord`s with non-empty
correlation lines makes `BuildValues` panic (the `d.(TxRecord)` type
assertion fails); no placeholder is recorded and the batch does not
continue. An earlier revision of the builder (src/unnamed/part_004) had
the ok-checked assertion the claim describes. -/
theorem C8_amended (env : Env) (vals : List GoVal) (q t : Nat)
    (htot : ∀ s, env.writeErr s = none)
    (hget : vals.get? q = some (GoVal.other t))
    (hpre : prefixSafe vals q = true) :
    BuildValues env vals = BVResult.goPanic := by
  unfold BuildValues
  exact buildLoop_other_panics env htot vals 0 0 _ [] none q t hget hpre

/-- Claim C8, witness: a valid record followed by a non-`TxRecord` element
panics. -/
theorem C8_witness :
    BuildValues envOk [GoVal.txRec recV, GoVal.other 7]
      = BVResult.goPanic :=
  C8_amended envOk [GoVal.txRec recV, GoVal.other 7] 1 7 (fun _ => rfl) rfl
    (by decide)

/-- Claim C9, counterexample: a record with no headers is converted
normally — `rowCount = 1`, its row holds the empty string in the headers
column, and `failedRecords` is empty, contradicting the claim that such a
record is isolated as a per-record error. -/
theorem C9_counterexample :
    BuildValues envOk [GoVal.txRec recNH]
        = BVResult.ok 1
          (some [Arg.bytes uuidBytes, Arg.str (hexPad16 0), Arg.str [],
            Arg.nullBytes none, Arg.str [48]]) [] none ∧
      recNH ∉ ([] : List TxRecord) := by decide

/-- Claim C9 (amended): a record with no headers is not treated as a
per-record error: when its correlation line is non-empty and identity
generation succeeds it converts like any other record, with the empty
string stored in the headers column and nothing added to
`failedRecords`. -/
theorem C9_amended (env : Env) (rec1 : TxRecord) (b : GoStr)
    (hh : rec1.Headers = []) (hreq : rec1.Request ≠ [])
    (hw : env.writeErr rec1.Request = none)
    (hg : env.gen 0 = GenResult.ok b) :
    BuildValues env [GoVal.txRec rec1]
        = BVResult.ok 1 (some (rowOf env b rec1)) [] none ∧
      (rowOf env b rec1).get? 2 = some (Arg.str []) := by
  have hie : rec1.Request.isEmpty = false := by
    rcases hr : rec1.Request with _ | ⟨x, xs⟩
    · exact absurd hr hreq
    · simp
  have hbs : batchSafe env [rec1] 0 = true := by
    simp [batchSafe, isOkGen, hg, hie, hw]
  have hbv := BuildValues_spec env [rec1] hbs
  have hr : convRows env [rec1] 0 = [rowOf env b rec1] := by
    simp [convRows, hg]
  have hf : convFails env [rec1] 0 = [] := by simp [convFails, hg]
  have he : convErr env [rec1] 0 = none := by simp [convErr, recStatus, hg]
  rw [hr, hf, he] at hbv
  simp only [List.length_cons, List.length_nil, List.length_singleton,
    Nat.sub_self, Nat.zero_mul, List.replicate_zero, List.append_nil,
    List.flatten_cons, List.flatten_nil] at hbv
  refine ⟨hbv, ?_⟩
  simp [rowOf, hh]

/-- Claim C9, witness: the no-headers record converts with an empty string
headers column. -/
theorem C9_witness :
    BuildValues envOk [GoVal.txRec recNH]
        = BVResult.ok 1 (some (rowOf envOk uuidBytes recNH)) [] none ∧
      (rowOf envOk uuidBytes recNH).get? 2 = some (Arg.str []) :=
  C9_amended envOk recNH uuidBytes rfl (by decide) rfl rfl

/-- Claim C10, counterexample: on the empty batch the statement-building
closure panics: `BuildValues` returns zero rows and no error, so the
success path slices `strings.Repeat(ps, 0)[1:]` out of bounds. -/
theorem C10_counterexample :
    SqlBuilder envOk [] = SBResult.goPanic := by decide

/-- Claim C10 (amended): the statement-building closure is total on every
non-empty batch of `TxRecord`s — it returns a `(statement, args)` pair and
never panics — but on the empty batch, although `BuildValues` returns zero
rows and no error, the closure itself panics on the out-of-bounds slice of
the empty placeholder repetition. -/
theorem C10_amended (env : Env) (recs : List TxRecord) :
    (recs ≠ [] → ∃ s a, SqlBuilder env (recs.map GoVal.txRec)
        = SBResult.ok s a) ∧
    (BuildValues env [] = BVResult.ok 0 (some []) [] none ∧
      SqlBuilder env [] = SBResult.goPanic) := by
  constructor
  · intro hne
    obtain ⟨c, a, f, e, hrun⟩ := buildLoop_no_panic env recs 0 0
      (List.replicate ((recs.map GoVal.txRec).length * numColumns) Arg.nilA)
      [] none
    have hbv : BuildValues env (recs.map GoVal.txRec)
        = BVResult.ok c a f e := hrun
    rcases e with _ | e0
    · obtain ⟨hc, l, hl⟩ := buildLoop_count_pos env recs 0 0 _ [] none c a f
        hne hrun
      rw [hl] at hbv
      exact ⟨_, _, SqlBuilder_success env _ c l f hbv hc⟩
    · exact ⟨_, _, SqlBuilder_err env _ c a f e0 hbv⟩
  · exact ⟨rfl, rfl⟩

/-- Claim C10, witness: a one-record batch (whose record even fails
generation) still yields a pair. -/
theorem C10_witness :
    ∃ s a, SqlBuilder envFail ([recV].map GoVal.txRec) = SBResult.ok s a :=
  (C10_amended envFail [recV]).1 (by decide)

end GinPersistLog
